import Mathlib

/-!
Verification development for the cross-boundary visibility-notification
protocol of `src/intersection-observer.js`: the geometry snapshot builder
(`getIntersectionChangeEntry`) and the stateful `IntersectionObserver`
protocol engine (handshake registration, pending-change queue,
de-duplication, 100 ms rate-limited flush, viewport subscription
lifecycle).
-/

namespace IntersectionObs

/-- Rectangle `{left, top, width, height, x, y}` as used by the change
records.  Coordinates are integers.  `x` and `y` are plain data fields;
the builder aliases them to `left`/`top`. -/
structure LayoutRect where
  left : Int
  top : Int
  width : Int
  height : Int
  x : Int
  y : Int
deriving DecidableEq, Repr

/-- Modelled from the spec: `layoutRectLtwh` constructs a rectangle from
left/top/width/height (the helper lives in `layout-rect.js`, outside
`src/`).  The `x`/`y` fields are not yet aliased; the builder sets them. -/
def layoutRectLtwh (l t w h : Int) : LayoutRect :=
  { left := l, top := t, width := w, height := h, x := 0, y := 0 }

/-- Modelled from the spec: `moveLayoutRect` translates a rectangle by
`(dx, dy)`, preserving its width and height (helper from
`layout-rect.js`, outside `src/`). -/
def moveLayoutRect (r : LayoutRect) (dx dy : Int) : LayoutRect :=
  layoutRectLtwh (r.left + dx) (r.top + dy) r.width r.height

/-- Modelled from the spec: `rectIntersection` returns the geometric
intersection of two closed rectangles, or `none` when they are disjoint
(helper from `layout-rect.js`, outside `src/`; the spec: "geometric
intersection of `referenceFrame` and the untranslated target rectangle;
if no overlap ... never null/absent" is realized by the caller
substituting the zero rectangle for `none`). -/
def rectIntersection (a b : LayoutRect) : Option LayoutRect :=
  let x0 := max a.left b.left
  let x1 := min (a.left + a.width) (b.left + b.width)
  if x0 ≤ x1 then
    let y0 := max a.top b.top
    let y1 := min (a.top + a.height) (b.top + b.height)
    if y0 ≤ y1 then some (layoutRectLtwh x0 y0 (x1 - x0) (y1 - y0))
    else none
  else none

/-- Two closed rectangles share at least one point. -/
def overlaps (a b : LayoutRect) : Prop :=
  max a.left b.left ≤ min (a.left + a.width) (b.left + b.width) ∧
  max a.top b.top ≤ min (a.top + a.height) (b.top + b.height)

instance (a b : LayoutRect) : Decidable (overlaps a b) := by
  unfold overlaps; infer_instance

/-- The point `(p, q)` lies in the closed rectangle `r`. -/
def memRect (p q : Int) (r : LayoutRect) : Prop :=
  r.left ≤ p ∧ p ≤ r.left + r.width ∧ r.top ≤ q ∧ q ≤ r.top + r.height

/-- An IntersectionObserverEntry-compatible change record, as returned by
`getIntersectionChangeEntry`. -/
structure IntersectionChangeEntry where
  time : Int
  rootBounds : LayoutRect
  boundingClientRect : LayoutRect
  intersectionRect : LayoutRect
deriving DecidableEq, Repr

/-- `getIntersectionChangeEntry(measureTime, rootBounds, elementLayoutBox)`
from `src/intersection-observer.js`.  The JS function mutates the passed-in
`rootBounds` (aliasing `x := left`, `y := top`); the embedding returns the
mutated `rootBounds` as the first component.  `dev.assert` on a negative
dimension of the translated bounding box is modelled as `none` (a fatal,
unrecoverable fault). -/
def getIntersectionChangeEntry (measureTime : Int)
    (rootBounds elementLayoutBox : LayoutRect) :
    Option (LayoutRect × IntersectionChangeEntry) :=
  let rootBounds := { rootBounds with x := rootBounds.left, y := rootBounds.top }
  let bcr0 := moveLayoutRect elementLayoutBox (-1 * rootBounds.x) (-1 * rootBounds.y)
  if 0 ≤ bcr0.width ∧ 0 ≤ bcr0.height then
    let boundingClientRect := { bcr0 with x := bcr0.left, y := bcr0.top }
    let ir0 := (rectIntersection rootBounds elementLayoutBox).getD (layoutRectLtwh 0 0 0 0)
    let intersectionRect := { ir0 with x := ir0.left, y := ir0.top }
    some (rootBounds,
      { time := measureTime
        rootBounds := rootBounds
        boundingClientRect := boundingClientRect
        intersectionRect := intersectionRect })
  else none

/-! ## The protocol engine

The `IntersectionObserver` class is a single-threaded, event-driven state
machine.  The element's current change entry
(`baseElement_.element.getIntersectionChangeEntry()`) is an external
collaborator; it is modelled as an oracle `env : Nat → IntersectionChangeEntry`
indexed by a call counter in the state.  Side effects (postMessage
broadcast, timer scheduling, viewport subscription management, vsync
measure requests) are recorded as an explicit action trace. -/

/-- Observable side effects of the engine. -/
inductive Action where
  | broadcast (windows : List (Nat × String)) (changes : List IntersectionChangeEntry)
  | setTimer (ms : Nat)
  | subscribeViewport
  | unsubscribeViewport
  | requestMeasure
deriving DecidableEq, Repr

/-- Engine state: the private fields of the `IntersectionObserver` class,
plus `measurePending` (outstanding vsync measure callbacks) and
`measureCount` (oracle index for element change-entry queries). -/
structure ObserverState where
  clientWindows : List (Nat × String)
  shouldSendIntersectionChanges_ : Bool
  inViewport_ : Bool
  pendingChanges_ : List IntersectionChangeEntry
  flushTimeout_ : Bool
  unlistenViewportChanges_ : Bool
  measurePending : Nat
  measureCount : Nat
deriving DecidableEq, Repr

/-- The constructor's initial state. -/
def initState : ObserverState :=
  { clientWindows := []
    shouldSendIntersectionChanges_ := false
    inViewport_ := false
    pendingChanges_ := []
    flushTimeout_ := false
    unlistenViewportChanges_ := false
    measurePending := 0
    measureCount := 0 }

abbrev Env := Nat → IntersectionChangeEntry

/-- `flush_()`: clear the timer handle; if the queue is non-empty,
postMessage the whole queue to every client window and clear it. -/
def flush_ (s : ObserverState) : ObserverState × List Action :=
  let s := { s with flushTimeout_ := false }
  if s.pendingChanges_.isEmpty then (s, [])
  else ({ s with pendingChanges_ := [] },
        [Action.broadcast s.clientWindows s.pendingChanges_])

/-- `sendElementIntersection_()`: no-op unless activated; query the
element's current change entry; drop it if its time equals the last
queued record's time; otherwise enqueue it and, if no rate-limit timer is
outstanding, flush immediately and start the 100 ms timer. -/
def sendElementIntersection_ (env : Env) (s : ObserverState) :
    ObserverState × List Action :=
  if !s.shouldSendIntersectionChanges_ then (s, [])
  else
    let change := env s.measureCount
    let s := { s with measureCount := s.measureCount + 1 }
    if s.pendingChanges_.getLast?.map IntersectionChangeEntry.time = some change.time then
      (s, [])
    else
      let s := { s with pendingChanges_ := s.pendingChanges_ ++ [change] }
      if !s.flushTimeout_ then
        let r := flush_ s
        ({ r.1 with flushTimeout_ := true }, r.2 ++ [Action.setTimer 100])
      else (s, [])

/-- `fire()`: the only observer registered in `init_` is
`sendElementIntersection_`. -/
def fire (env : Env) (s : ObserverState) : ObserverState × List Action :=
  sendElementIntersection_ env s

/-- `onViewportCallback(inViewport)`: idempotent on no transition;
otherwise record the new visibility, fire, and on entering the viewport
subscribe to scroll/changed events (storing the unlisten handle), on
leaving release the subscriptions and clear the handle. -/
def onViewportCallback (env : Env) (inViewport : Bool) (s : ObserverState) :
    ObserverState × List Action :=
  if s.inViewport_ == inViewport then (s, [])
  else
    let s := { s with inViewport_ := inViewport }
    let r := fire env s
    if inViewport then
      ({ r.1 with unlistenViewportChanges_ := true },
       r.2 ++ [Action.subscribeViewport])
    else if r.1.unlistenViewportChanges_ then
      ({ r.1 with unlistenViewportChanges_ := false },
       r.2 ++ [Action.unsubscribeViewport])
    else r

/-- `startSendingIntersectionChanges_()`: set the activation flag and
request an asynchronous vsync measurement. -/
def startSendingIntersectionChanges_ (s : ObserverState) :
    ObserverState × List Action :=
  ({ s with shouldSendIntersectionChanges_ := true
            measurePending := s.measurePending + 1 },
   [Action.requestMeasure])

/-- Completion of the vsync measure scheduled by
`startSendingIntersectionChanges_`: if the element is in the viewport,
synthesize a visibility-entered transition, then fire unconditionally. -/
def measureDone (env : Env) (visible : Bool) (s : ObserverState) :
    ObserverState × List Action :=
  let s := { s with measurePending := s.measurePending - 1 }
  let r1 := if visible then onViewportCallback env true s else (s, [])
  let r2 := fire env r1.1
  (r2.1, r1.2 ++ r2.2)

/-- The `send-intersections` handshake handler from `init_`: register the
source window (keyed by window identity, not origin) unless already
present, then start sending intersection changes. -/
def onHandshake (win : Nat) (origin : String) (s : ObserverState) :
    ObserverState × List Action :=
  let s :=
    if s.clientWindows.any (fun entry => entry.1 == win) then s
    else { s with clientWindows := s.clientWindows ++ [(win, origin)] }
  startSendingIntersectionChanges_ s

/-- External events driving the engine. -/
inductive Event where
  | handshake (win : Nat) (origin : String)
  | measureDone (visible : Bool)
  | viewportCallback (inViewport : Bool)
  | scroll
  | timerFire
deriving DecidableEq, Repr

def Event.isHandshake : Event → Bool
  | .handshake _ _ => true
  | _ => false

/-- One engine step.  Events whose callback is not currently registered
(timer fire with no outstanding timer, scroll with no subscription,
measure completion with no pending measure) are no-ops: in the source the
corresponding callback simply does not exist at that moment. -/
def step (env : Env) (s : ObserverState) : Event → ObserverState × List Action
  | .handshake w o => onHandshake w o s
  | .measureDone v =>
      if s.measurePending = 0 then (s, []) else measureDone env v s
  | .viewportCallback v => onViewportCallback env v s
  | .scroll =>
      if s.unlistenViewportChanges_ then fire env s else (s, [])
  | .timerFire => if s.flushTimeout_ then flush_ s else (s, [])

/-- Run a sequence of events, accumulating the action trace. -/
def run (env : Env) : List Event → ObserverState → ObserverState × List Action
  | [], s => (s, [])
  | e :: es, s =>
    let r1 := step env s e
    let r2 := run env es r1.1
    (r2.1, r1.2 ++ r2.2)

/-- `n` consecutive `sendElementIntersection_` triggers. -/
def sendN (env : Env) : Nat → ObserverState → ObserverState × List Action
  | 0, s => (s, [])
  | n + 1, s =>
    let r1 := sendElementIntersection_ env s
    let r2 := sendN env n r1.1
    (r2.1, r1.2 ++ r2.2)

/-- The oracle's answers for `n` consecutive queries starting at index `m`. -/
def windowChanges (env : Env) : Nat → Nat → List IntersectionChangeEntry
  | _, 0 => []
  | m, n + 1 => env m :: windowChanges env (m + 1) n

/-- Extract the broadcast actions (target windows and payload) from a trace. -/
def broadcastsOf (acts : List Action) :
    List (List (Nat × String) × List IntersectionChangeEntry) :=
  acts.filterMap fun a =>
    match a with
    | .broadcast w c => some (w, c)
    | _ => none

def Action.isUnsubscribe : Action → Bool
  | .unsubscribeViewport => true
  | _ => false

/-- All fields a never-handshaken engine keeps at their initial values:
not activated, empty queue, no timer, no outstanding measure. -/
def Quiescent (s : ObserverState) : Prop :=
  s.shouldSendIntersectionChanges_ = false ∧ s.pendingChanges_ = [] ∧
  s.flushTimeout_ = false ∧ s.measurePending = 0

instance (s : ObserverState) : Decidable (Quiescent s) := by
  unfold Quiescent; infer_instance

/-- A concrete change entry, used by witnesses. -/
def entryOf (t : Int) : IntersectionChangeEntry :=
  { time := t, rootBounds := layoutRectLtwh 0 0 0 0,
    boundingClientRect := layoutRectLtwh 0 0 0 0,
    intersectionRect := layoutRectLtwh 0 0 0 0 }

/-- A concrete oracle whose measurement times strictly increase. -/
def envW : Env := fun n => entryOf n

/-- A concrete subscribed, in-viewport state, used by witnesses. -/
def sSub : ObserverState :=
  { initState with inViewport_ := true, unlistenViewportChanges_ := true }

/-- A concrete activated state with one registered window, an empty queue
and no outstanding timer, used by witnesses. -/
def sActive : ObserverState :=
  { initState with shouldSendIntersectionChanges_ := true,
                   clientWindows := [(1, "w")] }

/-- Oracle whose measurement tick never advances: every query returns the
same time. -/
def envFlat : Env := fun _ => entryOf 5

/-- Activated state whose queue already ends with a record at the flat
oracle's time. -/
def sDup : ObserverState := { sActive with pendingChanges_ := [entryOf 5] }

/-- Activated state with the 100 ms rate-limit timer outstanding. -/
def sTimer : ObserverState := { sActive with flushTimeout_ := true }

/-- Oracle whose measurement times run 0, 1, 2, 1, ...: the fourth queued
time repeats the second, out of order. -/
def envC5 : Env := fun n =>
  entryOf (if n = 0 then 0 else if n = 2 then 2 else 1)

/-- Handshake, measurement completion in viewport, then two scrolls. -/
def evsC5 : List Event :=
  [Event.handshake 1 "w", Event.measureDone true, Event.scroll, Event.scroll]

/-! ## Geometry snapshot builder: C7, C8, C9 -/

/-- The `x := left`, `y := top` aliasing performed by the builder. -/
def aliasXY (r : LayoutRect) : LayoutRect := { r with x := r.left, y := r.top }

/-- The bounding client rect the builder produces. -/
def bcrOf (rb el : LayoutRect) : LayoutRect :=
  aliasXY (moveLayoutRect el (-1 * rb.left) (-1 * rb.top))

/-- The intersection rect the builder produces. -/
def irOf (rb el : LayoutRect) : LayoutRect :=
  aliasXY ((rectIntersection (aliasXY rb) el).getD (layoutRectLtwh 0 0 0 0))

/-- Concrete rectangles used by the witnesses of the geometry claims. -/
def rbW : LayoutRect :=
  { left := 0, top := 0, width := 10, height := 10, x := 0, y := 0 }

def elW : LayoutRect :=
  { left := 2, top := 3, width := 4, height := 5, x := 0, y := 0 }

def prW : LayoutRect × IntersectionChangeEntry :=
  (getIntersectionChangeEntry 0 rbW elW).getD
    (layoutRectLtwh 0 0 0 0,
     { time := 0, rootBounds := layoutRectLtwh 0 0 0 0,
       boundingClientRect := layoutRectLtwh 0 0 0 0,
       intersectionRect := layoutRectLtwh 0 0 0 0 })

/-- Rectangle whose `x` field disagrees with `left`: the builder's aliasing
mutates it, refuting the claim that arguments are left unchanged. -/
def rbC9 : LayoutRect :=
  { left := 0, top := 0, width := 10, height := 10, x := 5, y := 5 }

def elC9 : LayoutRect :=
  { left := 1, top := 1, width := 2, height := 2, x := 0, y := 0 }

/-- Closed form of `getIntersectionChangeEntry`. -/
theorem getIntersectionChangeEntry_eq (t : Int) (rb el : LayoutRect) :
    getIntersectionChangeEntry t rb el =
      if 0 ≤ el.width ∧ 0 ≤ el.height then
        some (aliasXY rb,
          { time := t, rootBounds := aliasXY rb,
            boundingClientRect := bcrOf rb el, intersectionRect := irOf rb el })
      else none := rfl

theorem rectIntersection_none_iff (a b : LayoutRect) :
    rectIntersection a b = none ↔ ¬ overlaps a b := by
  simp only [rectIntersection, overlaps]
  split_ifs with h1 h2 <;> simp_all

theorem rectIntersection_some_spec (a b r : LayoutRect)
    (h : rectIntersection a b = some r) :
    0 ≤ r.width ∧ 0 ≤ r.height ∧
    (∀ p q : Int, memRect p q r ↔ memRect p q a ∧ memRect p q b) := by
  simp only [rectIntersection] at h
  split_ifs at h with h1 h2
  · rw [Option.some_inj] at h
    subst h
    refine ⟨?_, ?_, fun p q => ?_⟩
    · show (0:Int) ≤ min (a.left + a.width) (b.left + b.width) - max a.left b.left
      omega
    · show (0:Int) ≤ min (a.top + a.height) (b.top + b.height) - max a.top b.top
      omega
    · simp only [memRect, layoutRectLtwh]
      omega

theorem irOf_spec (rb el : LayoutRect) :
    0 ≤ (irOf rb el).width ∧ 0 ≤ (irOf rb el).height ∧
    (¬ overlaps rb el → irOf rb el = layoutRectLtwh 0 0 0 0) ∧
    (overlaps rb el → ∀ p q : Int,
      memRect p q (irOf rb el) ↔ memRect p q rb ∧ memRect p q el) := by
  rcases hri : rectIntersection (aliasXY rb) el with _ | r
  · have hno : ¬ overlaps rb el :=
      (rectIntersection_none_iff (aliasXY rb) el).mp hri
    unfold irOf
    rw [hri]
    exact ⟨le_refl 0, le_refl 0, fun _ => rfl, fun hov => absurd hov hno⟩
  · have hsp := rectIntersection_some_spec (aliasXY rb) el r hri
    unfold irOf
    rw [hri]
    refine ⟨hsp.1, hsp.2.1, fun hno => ?_, fun hov p q => hsp.2.2 p q⟩
    have hnone := (rectIntersection_none_iff (aliasXY rb) el).mpr hno
    rw [hri] at hnone
    exact absurd hnone (by simp)

/-- C7: for all input rectangles, the `intersectionBox` of the ChangeRecord
produced by the builder equals the geometric intersection of
`referenceFrame` and the untranslated `targetRect` (pointwise, whenever
they overlap), has non-negative width and height, and equals the zero
rectangle `(0,0,0,0)` when the two rectangles do not overlap. -/
theorem c7_intersection_box (t : Int) (rb el : LayoutRect)
    (pr : LayoutRect × IntersectionChangeEntry)
    (hsome : getIntersectionChangeEntry t rb el = some pr) :
    0 ≤ pr.2.intersectionRect.width ∧ 0 ≤ pr.2.intersectionRect.height ∧
    (¬ overlaps rb el → pr.2.intersectionRect = layoutRectLtwh 0 0 0 0) ∧
    (overlaps rb el → ∀ p q : Int,
      memRect p q pr.2.intersectionRect ↔ memRect p q rb ∧ memRect p q el) := by
  rw [getIntersectionChangeEntry_eq] at hsome
  split at hsome
  case isFalse => exact absurd hsome (by simp)
  case isTrue hdim =>
    rw [Option.some_inj] at hsome
    subst hsome
    exact irOf_spec rb el

theorem c7_intersection_box_witness :
    0 ≤ prW.2.intersectionRect.width ∧ 0 ≤ prW.2.intersectionRect.height ∧
    (¬ overlaps rbW elW → prW.2.intersectionRect = layoutRectLtwh 0 0 0 0) ∧
    (overlaps rbW elW → ∀ p q : Int,
      memRect p q prW.2.intersectionRect ↔ memRect p q rbW ∧ memRect p q elW) :=
  c7_intersection_box 0 rbW elW prW (by decide)

/-- C8: the builder computes `boundingBox` by translating `targetRect` by
`(-referenceFrame.x, -referenceFrame.y)` (after the `x := left`, `y := top`
aliasing) and asserts that its width and height are non-negative; when the
translated target has non-negative dimensions the assertion-failure branch
is unreachable (the result is always `some`), and a negative dimension is a
fatal, unrecoverable outcome (`none`): no change record is produced. -/
theorem c8_bounding_box_assertion :
    (∀ (t : Int) (rb el : LayoutRect) (pr : LayoutRect × IntersectionChangeEntry),
      getIntersectionChangeEntry t rb el = some pr →
        pr.2.boundingClientRect.left = el.left - rb.left ∧
        pr.2.boundingClientRect.top = el.top - rb.top ∧
        pr.2.boundingClientRect.width = el.width ∧
        pr.2.boundingClientRect.height = el.height ∧
        0 ≤ pr.2.boundingClientRect.width ∧ 0 ≤ pr.2.boundingClientRect.height) ∧
    (∀ (t : Int) (rb el : LayoutRect),
      0 ≤ (moveLayoutRect el (-1 * rb.left) (-1 * rb.top)).width →
      0 ≤ (moveLayoutRect el (-1 * rb.left) (-1 * rb.top)).height →
      (getIntersectionChangeEntry t rb el).isSome = true) ∧
    (∀ (t : Int) (rb el : LayoutRect),
      el.width < 0 ∨ el.height < 0 →
      getIntersectionChangeEntry t rb el = none) := by
  refine ⟨?_, ?_, ?_⟩
  · intro t rb el pr hsome
    rw [getIntersectionChangeEntry_eq] at hsome
    split at hsome
    case isFalse => exact absurd hsome (by simp)
    case isTrue hdim =>
      rw [Option.some_inj] at hsome
      subst hsome
      refine ⟨?_, ?_, rfl, rfl, hdim.1, hdim.2⟩
      · show el.left + -1 * rb.left = el.left - rb.left
        omega
      · show el.top + -1 * rb.top = el.top - rb.top
        omega
  · intro t rb el hw hh
    have hc : 0 ≤ el.width ∧ 0 ≤ el.height := ⟨hw, hh⟩
    rw [getIntersectionChangeEntry_eq, if_pos hc]
    rfl
  · intro t rb el hneg
    rw [getIntersectionChangeEntry_eq,
        if_neg (show ¬ (0 ≤ el.width ∧ 0 ≤ el.height) by omega)]

theorem c8_bounding_box_assertion_witness :
    prW.2.boundingClientRect.left = elW.left - rbW.left ∧
    prW.2.boundingClientRect.top = elW.top - rbW.top ∧
    prW.2.boundingClientRect.width = elW.width ∧
    prW.2.boundingClientRect.height = elW.height ∧
    0 ≤ prW.2.boundingClientRect.width ∧ 0 ≤ prW.2.boundingClientRect.height :=
  c8_bounding_box_assertion.1 0 rbW elW prW (by decide)

/-- C9 counterexample: the claim that `getIntersectionChangeEntry` leaves
the passed-in `referenceFrame` unchanged is false: with `x = 5 ≠ left = 0`
the function mutates the rectangle (aliasing `x := left`, `y := top`), so
the returned root bounds differ from the input. -/
theorem c9_counterexample :
    (getIntersectionChangeEntry 0 rbC9 elC9).map Prod.fst ≠ some rbC9 := by
  decide

/-- C9 (amended): `getIntersectionChangeEntry` is deterministic and its
only effect on its arguments is setting the passed-in `referenceFrame`'s
`x` and `y` fields to its `left` and `top`; every other field of
`referenceFrame` is unchanged, and the record's `rootBounds` is exactly
that aliased rectangle. -/
theorem c9_purity_amended (t : Int) (rb el : LayoutRect)
    (pr : LayoutRect × IntersectionChangeEntry)
    (hsome : getIntersectionChangeEntry t rb el = some pr) :
    pr.1 = { rb with x := rb.left, y := rb.top } ∧
    pr.1.left = rb.left ∧ pr.1.top = rb.top ∧
    pr.1.width = rb.width ∧ pr.1.height = rb.height ∧
    pr.2.rootBounds = pr.1 := by
  rw [getIntersectionChangeEntry_eq] at hsome
  split at hsome
  case isFalse => exact absurd hsome (by simp)
  case isTrue hdim =>
    rw [Option.some_inj] at hsome
    subst hsome
    exact ⟨rfl, rfl, rfl, rfl, rfl, rfl⟩

theorem c9_purity_amended_witness :
    prW.1 = { rbW with x := rbW.left, y := rbW.top } ∧
    prW.1.left = rbW.left ∧ prW.1.top = rbW.top ∧
    prW.1.width = rbW.width ∧ prW.1.height = rbW.height ∧
    prW.2.rootBounds = prW.1 :=
  c9_purity_amended 0 rbW elW prW (by decide)

/-! ## Protocol engine: branch equations for `sendElementIntersection_` -/

theorem sendEI_eq_inactive (env : Env) (s : ObserverState)
    (hs : s.shouldSendIntersectionChanges_ = false) :
    sendElementIntersection_ env s = (s, []) := by
  simp [sendElementIntersection_, hs]

theorem sendEI_eq_dup (env : Env) (s : ObserverState)
    (hs : s.shouldSendIntersectionChanges_ = true)
    (hdup : s.pendingChanges_.getLast?.map IntersectionChangeEntry.time
      = some (env s.measureCount).time) :
    sendElementIntersection_ env s
      = ({ s with measureCount := s.measureCount + 1 }, []) := by
  simp [sendElementIntersection_, hs, hdup]

theorem sendEI_eq_push_timer (env : Env) (s : ObserverState)
    (hs : s.shouldSendIntersectionChanges_ = true)
    (hdup : ¬ s.pendingChanges_.getLast?.map IntersectionChangeEntry.time
      = some (env s.measureCount).time)
    (hft : s.flushTimeout_ = true) :
    sendElementIntersection_ env s
      = ({ s with measureCount := s.measureCount + 1,
                  pendingChanges_ := s.pendingChanges_ ++ [env s.measureCount] },
         []) := by
  simp [sendElementIntersection_, hs, hdup, hft]

theorem sendEI_eq_push_flush (env : Env) (s : ObserverState)
    (hs : s.shouldSendIntersectionChanges_ = true)
    (hdup : ¬ s.pendingChanges_.getLast?.map IntersectionChangeEntry.time
      = some (env s.measureCount).time)
    (hft : s.flushTimeout_ = false) :
    sendElementIntersection_ env s
      = ({ s with measureCount := s.measureCount + 1,
                  pendingChanges_ := [], flushTimeout_ := true },
         [Action.broadcast s.clientWindows
            (s.pendingChanges_ ++ [env s.measureCount]),
          Action.setTimer 100]) := by
  simp [sendElementIntersection_, flush_, hs, hdup, hft]

/-! ## Frame lemmas: fields each operation leaves untouched -/

theorem flush_frame (s : ObserverState) :
    (flush_ s).1.clientWindows = s.clientWindows ∧
    (flush_ s).1.shouldSendIntersectionChanges_ = s.shouldSendIntersectionChanges_ ∧
    (flush_ s).1.inViewport_ = s.inViewport_ ∧
    (flush_ s).1.unlistenViewportChanges_ = s.unlistenViewportChanges_ ∧
    (flush_ s).1.measurePending = s.measurePending ∧
    (flush_ s).1.measureCount = s.measureCount ∧
    (flush_ s).1.flushTimeout_ = false := by
  simp only [flush_]
  split <;> exact ⟨rfl, rfl, rfl, rfl, rfl, rfl, rfl⟩

theorem sendEI_frame (env : Env) (s : ObserverState) :
    (sendElementIntersection_ env s).1.clientWindows = s.clientWindows ∧
    (sendElementIntersection_ env s).1.shouldSendIntersectionChanges_
      = s.shouldSendIntersectionChanges_ ∧
    (sendElementIntersection_ env s).1.inViewport_ = s.inViewport_ ∧
    (sendElementIntersection_ env s).1.unlistenViewportChanges_
      = s.unlistenViewportChanges_ ∧
    (sendElementIntersection_ env s).1.measurePending = s.measurePending := by
  cases hs : s.shouldSendIntersectionChanges_
  · rw [sendEI_eq_inactive env s hs]
    exact ⟨rfl, hs, rfl, rfl, rfl⟩
  · by_cases hdup : s.pendingChanges_.getLast?.map IntersectionChangeEntry.time
        = some (env s.measureCount).time
    · rw [sendEI_eq_dup env s hs hdup]
      exact ⟨rfl, hs, rfl, rfl, rfl⟩
    · cases hft : s.flushTimeout_
      · rw [sendEI_eq_push_flush env s hs hdup hft]
        exact ⟨rfl, hs, rfl, rfl, rfl⟩
      · rw [sendEI_eq_push_timer env s hs hdup hft]
        exact ⟨rfl, hs, rfl, rfl, rfl⟩

theorem sendEI_no_unsub (env : Env) (s : ObserverState) :
    (sendElementIntersection_ env s).2.filter Action.isUnsubscribe = [] := by
  cases hs : s.shouldSendIntersectionChanges_
  · rw [sendEI_eq_inactive env s hs]; rfl
  · by_cases hdup : s.pendingChanges_.getLast?.map IntersectionChangeEntry.time
        = some (env s.measureCount).time
    · rw [sendEI_eq_dup env s hs hdup]; rfl
    · cases hft : s.flushTimeout_
      · rw [sendEI_eq_push_flush env s hs hdup hft]; rfl
      · rw [sendEI_eq_push_timer env s hs hdup hft]; rfl

/-! ## Branch equations for `onViewportCallback` and friends -/

theorem onVC_eq_noop (env : Env) (v : Bool) (s : ObserverState)
    (h : s.inViewport_ = v) :
    onViewportCallback env v s = (s, []) := by
  simp [onViewportCallback, h]

theorem onVC_eq_enter (env : Env) (s : ObserverState)
    (h : s.inViewport_ = false) :
    onViewportCallback env true s =
      ({ (sendElementIntersection_ env { s with inViewport_ := true }).1
          with unlistenViewportChanges_ := true },
       (sendElementIntersection_ env { s with inViewport_ := true }).2
         ++ [Action.subscribeViewport]) := by
  simp [onViewportCallback, fire, h]

theorem onVC_eq_exit (env : Env) (s : ObserverState)
    (h : s.inViewport_ = true) :
    onViewportCallback env false s =
      (if (sendElementIntersection_ env { s with inViewport_ := false }).1.unlistenViewportChanges_
       then
         ({ (sendElementIntersection_ env { s with inViewport_ := false }).1
             with unlistenViewportChanges_ := false },
          (sendElementIntersection_ env { s with inViewport_ := false }).2
            ++ [Action.unsubscribeViewport])
       else sendElementIntersection_ env { s with inViewport_ := false }) := by
  simp [onViewportCallback, fire, h]

theorem onVC_frame (env : Env) (v : Bool) (s : ObserverState) :
    (onViewportCallback env v s).1.clientWindows = s.clientWindows ∧
    (onViewportCallback env v s).1.shouldSendIntersectionChanges_
      = s.shouldSendIntersectionChanges_ ∧
    (onViewportCallback env v s).1.measurePending = s.measurePending := by
  have hf := sendEI_frame env { s with inViewport_ := v }
  simp only [onViewportCallback, fire]
  split
  · exact ⟨rfl, rfl, rfl⟩
  · split
    · exact ⟨hf.1, hf.2.1, hf.2.2.2.2⟩
    · split
      · exact ⟨hf.1, hf.2.1, hf.2.2.2.2⟩
      · exact ⟨hf.1, hf.2.1, hf.2.2.2.2⟩

theorem measureDone_windows (env : Env) (v : Bool) (s : ObserverState) :
    (measureDone env v s).1.clientWindows = s.clientWindows := by
  simp only [measureDone, fire]
  split
  · exact ((sendEI_frame env _).1).trans ((onVC_frame env true _).1)
  · exact (sendEI_frame env _).1

theorem onHandshake_windows (w : Nat) (o : String) (s : ObserverState) :
    (onHandshake w o s).1.clientWindows
      = if s.clientWindows.any (fun entry => entry.1 == w) then s.clientWindows
        else s.clientWindows ++ [(w, o)] := by
  simp only [onHandshake, startSendingIntersectionChanges_]
  split <;> rfl

/-! ## Subscription lifecycle (C10) -/

theorem onVC_sub_iff (env : Env) (v : Bool) (s : ObserverState)
    (h : s.unlistenViewportChanges_ = s.inViewport_) :
    (onViewportCallback env v s).1.unlistenViewportChanges_
      = (onViewportCallback env v s).1.inViewport_ := by
  by_cases hv : s.inViewport_ = v
  · rw [onVC_eq_noop env v s hv]; exact h
  · cases v
    · have ht : s.inViewport_ = true := by
        cases hiv : s.inViewport_ <;> simp_all
      rw [onVC_eq_exit env s ht]
      have hfr := sendEI_frame env { s with inViewport_ := false }
      have hu : (sendElementIntersection_ env
          { s with inViewport_ := false }).1.unlistenViewportChanges_ = true := by
        rw [hfr.2.2.2.1]
        show s.unlistenViewportChanges_ = true
        rw [h, ht]
      rw [if_pos hu]
      show false = (sendElementIntersection_ env
        { s with inViewport_ := false }).1.inViewport_
      rw [hfr.2.2.1]
    · have hf' : s.inViewport_ = false := by
        cases hiv : s.inViewport_ <;> simp_all
      rw [onVC_eq_enter env s hf']
      show true = (sendElementIntersection_ env
        { s with inViewport_ := true }).1.inViewport_
      rw [(sendEI_frame env { s with inViewport_ := true }).2.2.1]

theorem step_sub_iff (env : Env) (e : Event) (s : ObserverState)
    (h : s.unlistenViewportChanges_ = s.inViewport_) :
    (step env s e).1.unlistenViewportChanges_ = (step env s e).1.inViewport_ := by
  cases e with
  | handshake w o =>
      simp only [step, onHandshake, startSendingIntersectionChanges_]
      split <;> exact h
  | measureDone v =>
      simp only [step]
      split
      · exact h
      · simp only [measureDone, fire]
        split
        · have h1 := onVC_sub_iff env true
            { s with measurePending := s.measurePending - 1 } h
          have hfr := sendEI_frame env
            (onViewportCallback env true { s with measurePending := s.measurePending - 1 }).1
          rw [hfr.2.2.2.1, hfr.2.2.1]
          exact h1
        · have hfr := sendEI_frame env { s with measurePending := s.measurePending - 1 }
          rw [hfr.2.2.2.1, hfr.2.2.1]
          exact h
  | viewportCallback v =>
      simp only [step]
      exact onVC_sub_iff env v s h
  | scroll =>
      simp only [step, fire]
      split
      · have hfr := sendEI_frame env s
        rw [hfr.2.2.2.1, hfr.2.2.1]
        exact h
      · exact h
  | timerFire =>
      simp only [step]
      split
      · have hfr := flush_frame s
        rw [hfr.2.2.2.1, hfr.2.2.1]
        exact h
      · exact h

theorem run_sub_iff (env : Env) (evs : List Event) :
    ∀ s : ObserverState, s.unlistenViewportChanges_ = s.inViewport_ →
      (run env evs s).1.unlistenViewportChanges_
        = (run env evs s).1.inViewport_ := by
  induction evs with
  | nil => intro s h; exact h
  | cons e es ih =>
      intro s h
      exact ih (step env s e).1 (step_sub_iff env e s h)

/-- C10: scroll/resize subscriptions exist if and only if the element is
in the viewport: in every run-reachable state the unlisten handle is held
exactly when `inViewport_` is true; on a visible-to-invisible transition
with an active subscription the subscriptions are released exactly once
(exactly one unsubscribe action) and the handle is cleared; and a
subsequent external scroll notification on an unsubscribed state is a
complete no-op (no recompute, no actions). -/
theorem c10_subscriptions_iff_visible :
    (∀ (env : Env) (evs : List Event),
      (run env evs initState).1.unlistenViewportChanges_
        = (run env evs initState).1.inViewport_) ∧
    (∀ (env : Env) (s : ObserverState),
      s.inViewport_ = true → s.unlistenViewportChanges_ = true →
      (onViewportCallback env false s).1.unlistenViewportChanges_ = false ∧
      ((onViewportCallback env false s).2.filter Action.isUnsubscribe).length = 1) ∧
    (∀ (env : Env) (s : ObserverState),
      s.unlistenViewportChanges_ = false →
      step env s Event.scroll = (s, [])) := by
  refine ⟨fun env evs => run_sub_iff env evs initState rfl, ?_, ?_⟩
  · intro env s hiv hsub
    rw [onVC_eq_exit env s hiv]
    have hfr := sendEI_frame env { s with inViewport_ := false }
    have hu : (sendElementIntersection_ env
        { s with inViewport_ := false }).1.unlistenViewportChanges_ = true := by
      rw [hfr.2.2.2.1]
      exact hsub
    rw [if_pos hu]
    refine ⟨rfl, ?_⟩
    show ((((sendElementIntersection_ env { s with inViewport_ := false }).2
      ++ [Action.unsubscribeViewport]).filter Action.isUnsubscribe).length) = 1
    rw [List.filter_append, sendEI_no_unsub]
    rfl
  · intro env s hsub
    simp [step, hsub]

/-! ## Inactive engine is silent (C3) -/

theorem broadcastsOf_append (a b : List Action) :
    broadcastsOf (a ++ b) = broadcastsOf a ++ broadcastsOf b :=
  List.filterMap_append a b _

theorem step_quiescent (env : Env) (e : Event) (s : ObserverState)
    (hq : Quiescent s) (he : e.isHandshake = false) :
    Quiescent (step env s e).1 ∧ broadcastsOf (step env s e).2 = [] := by
  obtain ⟨h1, h2, h3, h4⟩ := hq
  cases e with
  | handshake w o => simp [Event.isHandshake] at he
  | measureDone v =>
      simp only [step]
      rw [if_pos h4]
      exact ⟨⟨h1, h2, h3, h4⟩, rfl⟩
  | viewportCallback v =>
      simp only [step]
      by_cases hv : s.inViewport_ = v
      · rw [onVC_eq_noop env v s hv]
        exact ⟨⟨h1, h2, h3, h4⟩, rfl⟩
      · cases v
        · have ht : s.inViewport_ = true := by
            cases hiv : s.inViewport_ <;> simp_all
          rw [onVC_eq_exit env s ht,
              sendEI_eq_inactive env { s with inViewport_ := false } h1]
          split
          · exact ⟨⟨h1, h2, h3, h4⟩, rfl⟩
          · exact ⟨⟨h1, h2, h3, h4⟩, rfl⟩
        · have hf' : s.inViewport_ = false := by
            cases hiv : s.inViewport_ <;> simp_all
          rw [onVC_eq_enter env s hf',
              sendEI_eq_inactive env { s with inViewport_ := true } h1]
          exact ⟨⟨h1, h2, h3, h4⟩, rfl⟩
  | scroll =>
      simp only [step, fire]
      split
      · rw [sendEI_eq_inactive env s h1]
        exact ⟨⟨h1, h2, h3, h4⟩, rfl⟩
      · exact ⟨⟨h1, h2, h3, h4⟩, rfl⟩
  | timerFire =>
      simp only [step]
      split
      case isTrue hft =>
        rw [h3] at hft
        exact absurd hft (by simp)
      case isFalse =>
        exact ⟨⟨h1, h2, h3, h4⟩, rfl⟩

theorem run_quiescent (env : Env) (evs : List Event) :
    ∀ s : ObserverState, Quiescent s → (∀ e ∈ evs, e.isHandshake = false) →
      Quiescent (run env evs s).1 ∧ broadcastsOf (run env evs s).2 = [] := by
  induction evs with
  | nil => intro s hq _; exact ⟨hq, rfl⟩
  | cons e es ih =>
      intro s hq hall
      have he := hall e (List.mem_cons_self e es)
      have hs := step_quiescent env e s hq he
      have hrest := ih (step env s e).1 hs.1
        (fun x hx => hall x (List.mem_cons_of_mem e hx))
      refine ⟨hrest.1, ?_⟩
      show broadcastsOf ((step env s e).2 ++ (run env es (step env s e).1).2) = []
      rw [broadcastsOf_append, hs.2, hrest.2]
      rfl

/-- C3: if `onHandshake` is never invoked, no broadcast is ever sent, no
matter how many visibility transitions, scroll events and timer firings
occur; moreover `sendElementIntersection_` is a complete no-op (state
unchanged, no actions) whenever the activation flag is false. -/
theorem c3_no_handshake_no_broadcast :
    (∀ (env : Env) (evs : List Event),
      (∀ e ∈ evs, e.isHandshake = false) →
      broadcastsOf (run env evs initState).2 = []) ∧
    (∀ (env : Env) (s : ObserverState),
      s.shouldSendIntersectionChanges_ = false →
      sendElementIntersection_ env s = (s, [])) := by
  constructor
  · intro env evs hall
    exact (run_quiescent env evs initState ⟨rfl, rfl, rfl, rfl⟩ hall).2
  · exact sendEI_eq_inactive

theorem c3_no_handshake_no_broadcast_witness :
    broadcastsOf (run envW
      [Event.viewportCallback true, Event.scroll, Event.scroll,
       Event.viewportCallback false, Event.timerFire] initState).2 = [] ∧
    sendElementIntersection_ envW initState = (initState, []) :=
  ⟨c3_no_handshake_no_broadcast.1 envW
      [Event.viewportCallback true, Event.scroll, Event.scroll,
       Event.viewportCallback false, Event.timerFire] (by decide),
   c3_no_handshake_no_broadcast.2 envW initState (by decide)⟩

theorem c10_subscriptions_iff_visible_witness :
    ((run envW [Event.viewportCallback true, Event.scroll] initState).1.unlistenViewportChanges_
      = (run envW [Event.viewportCallback true, Event.scroll] initState).1.inViewport_) ∧
    ((onViewportCallback envW false sSub).1.unlistenViewportChanges_ = false ∧
     ((onViewportCallback envW false sSub).2.filter Action.isUnsubscribe).length = 1) ∧
    step envW initState Event.scroll = (initState, []) :=
  ⟨c10_subscriptions_iff_visible.1 envW [Event.viewportCallback true, Event.scroll],
   c10_subscriptions_iff_visible.2.1 envW sSub (by decide) (by decide),
   c10_subscriptions_iff_visible.2.2 envW initState (by decide)⟩

/-! ## Queue de-duplication invariant (C5) -/

theorem sendEI_chain (env : Env) (s : ObserverState)
    (h : List.Chain' (fun a b => a.time ≠ b.time) s.pendingChanges_) :
    List.Chain' (fun a b => a.time ≠ b.time)
      (sendElementIntersection_ env s).1.pendingChanges_ := by
  cases hs : s.shouldSendIntersectionChanges_
  · rw [sendEI_eq_inactive env s hs]; exact h
  · by_cases hdup : s.pendingChanges_.getLast?.map IntersectionChangeEntry.time
        = some (env s.measureCount).time
    · rw [sendEI_eq_dup env s hs hdup]; exact h
    · have happ : List.Chain' (fun a b => a.time ≠ b.time)
          (s.pendingChanges_ ++ [env s.measureCount]) := by
        rw [List.chain'_append]
        refine ⟨h, List.chain'_singleton _, ?_⟩
        intro x hx y hy
        rw [List.head?_cons, Option.mem_def, Option.some_inj] at hy
        rw [Option.mem_def] at hx
        intro heq
        apply hdup
        rw [hx, Option.map_some', heq, hy]
      cases hft : s.flushTimeout_
      · rw [sendEI_eq_push_flush env s hs hdup hft]
        exact List.chain'_nil
      · rw [sendEI_eq_push_timer env s hs hdup hft]
        exact happ

theorem flush_chain (s : ObserverState)
    (h : List.Chain' (fun a b => a.time ≠ b.time) s.pendingChanges_) :
    List.Chain' (fun a b => a.time ≠ b.time) (flush_ s).1.pendingChanges_ := by
  simp only [flush_]
  split
  · exact h
  · exact List.chain'_nil

theorem onVC_chain (env : Env) (v : Bool) (s : ObserverState)
    (h : List.Chain' (fun a b => a.time ≠ b.time) s.pendingChanges_) :
    List.Chain' (fun a b => a.time ≠ b.time)
      (onViewportCallback env v s).1.pendingChanges_ := by
  by_cases hv : s.inViewport_ = v
  · rw [onVC_eq_noop env v s hv]; exact h
  · cases v
    · have ht : s.inViewport_ = true := by
        cases hiv : s.inViewport_ <;> simp_all
      rw [onVC_eq_exit env s ht]
      have hse := sendEI_chain env { s with inViewport_ := false } h
      split
      · exact hse
      · exact hse
    · have hf' : s.inViewport_ = false := by
        cases hiv : s.inViewport_ <;> simp_all
      rw [onVC_eq_enter env s hf']
      exact sendEI_chain env { s with inViewport_ := true } h

theorem step_chain (env : Env) (e : Event) (s : ObserverState)
    (h : List.Chain' (fun a b => a.time ≠ b.time) s.pendingChanges_) :
    List.Chain' (fun a b => a.time ≠ b.time) (step env s e).1.pendingChanges_ := by
  cases e with
  | handshake w o =>
      simp only [step, onHandshake, startSendingIntersectionChanges_]
      split <;> exact h
  | measureDone v =>
      simp only [step]
      split
      · exact h
      · simp only [measureDone, fire]
        split
        · exact sendEI_chain env _
            (onVC_chain env true { s with measurePending := s.measurePending - 1 } h)
        · exact sendEI_chain env { s with measurePending := s.measurePending - 1 } h
  | viewportCallback v =>
      simp only [step]
      exact onVC_chain env v s h
  | scroll =>
      simp only [step, fire]
      split
      · exact sendEI_chain env s h
      · exact h
  | timerFire =>
      simp only [step]
      split
      · exact flush_chain s h
      · exact h

theorem run_chain (env : Env) (evs : List Event) :
    ∀ s : ObserverState,
      List.Chain' (fun a b => a.time ≠ b.time) s.pendingChanges_ →
      List.Chain' (fun a b => a.time ≠ b.time) (run env evs s).1.pendingChanges_ := by
  induction evs with
  | nil => intro s h; exact h
  | cons e es ih =>
      intro s h
      exact ih (step env s e).1 (step_chain env e s h)

/-- C5 counterexample: the pending queue of a reachable state can contain
two records with the same measurement time, because de-duplication only
compares the tail of the queue: after a handshake, a measurement
completing in-viewport, and two scrolls whose sampled times run 1, 2, 1,
the queue holds times [1, 2, 1]. -/
theorem c5_counterexample :
    ¬ List.Pairwise (fun a b => a.time ≠ b.time)
        (run envC5 evsC5 initState).1.pendingChanges_ := by decide

/-- C5 (amended): in every reachable state of the engine, no two ADJACENT
records of `pendingQueue` have identical `time` (the de-duplication check
compares only the most recently queued record, so equal times can recur
non-adjacently, but never next to each other). -/
theorem c5_queue_adjacent_times_differ (env : Env) (evs : List Event) :
    List.Chain' (fun a b => a.time ≠ b.time)
      (run env evs initState).1.pendingChanges_ :=
  run_chain env evs initState List.chain'_nil

/-! ## Endpoint registry keyed by window (C6) -/

theorem step_windows_other (env : Env) (e : Event) (s : ObserverState)
    (he : e.isHandshake = false) :
    (step env s e).1.clientWindows = s.clientWindows := by
  cases e with
  | handshake w o => simp [Event.isHandshake] at he
  | measureDone v =>
      simp only [step]
      split
      · rfl
      · exact measureDone_windows env v s
  | viewportCallback v =>
      simp only [step]
      exact (onVC_frame env v s).1
  | scroll =>
      simp only [step, fire]
      split
      · exact (sendEI_frame env s).1
      · rfl
  | timerFire =>
      simp only [step]
      split
      · exact (flush_frame s).1
      · rfl

theorem mem_handshake_cons_iff (w : Nat) (e : Event) (es : List Event)
    (he : e.isHandshake = false) :
    (∃ o, Event.handshake w o ∈ e :: es) ↔ (∃ o, Event.handshake w o ∈ es) := by
  constructor
  · rintro ⟨o, ho⟩
    rcases List.mem_cons.mp ho with heq | hin
    · rw [← heq] at he
      simp [Event.isHandshake] at he
    · exact ⟨o, hin⟩
  · rintro ⟨o, ho⟩
    exact ⟨o, List.mem_cons_of_mem _ ho⟩

theorem run_windows (env : Env) (evs : List Event) :
    ∀ s : ObserverState,
      (s.clientWindows.map Prod.fst).Nodup →
      (((run env evs s).1.clientWindows.map Prod.fst).Nodup ∧
       ∀ w : Nat, w ∈ (run env evs s).1.clientWindows.map Prod.fst ↔
         (w ∈ s.clientWindows.map Prod.fst ∨ ∃ o, Event.handshake w o ∈ evs)) := by
  induction evs with
  | nil =>
      intro s hnd
      refine ⟨hnd, fun w => ?_⟩
      simp [run]
  | cons e es ih =>
      intro s hnd
      cases e with
      | handshake w' o' =>
          by_cases hmem : s.clientWindows.any (fun entry => entry.1 == w')
          · have hw : (step env s (Event.handshake w' o')).1.clientWindows
                = s.clientWindows := by
              show (onHandshake w' o' s).1.clientWindows = s.clientWindows
              rw [onHandshake_windows, if_pos hmem]
            obtain ⟨hnd', hiff⟩ := ih (step env s (Event.handshake w' o')).1
              (by rw [hw]; exact hnd)
            refine ⟨hnd', fun w => (hiff w).trans ?_⟩
            rw [hw]
            constructor
            · rintro (hws | ⟨o, ho⟩)
              · exact Or.inl hws
              · exact Or.inr ⟨o, List.mem_cons_of_mem _ ho⟩
            · rintro (hws | ⟨o, ho⟩)
              · exact Or.inl hws
              · rcases List.mem_cons.mp ho with heq | hin
                · injection heq with hww hoo
                  subst hww
                  obtain ⟨x, hxmem, hbeq⟩ := List.any_eq_true.mp hmem
                  have hx1 : x.1 = w := by simpa using hbeq
                  left
                  rw [← hx1]
                  exact List.mem_map_of_mem Prod.fst hxmem
                · exact Or.inr ⟨o, hin⟩
          · have hw : (step env s (Event.handshake w' o')).1.clientWindows
                = s.clientWindows ++ [(w', o')] := by
              show (onHandshake w' o' s).1.clientWindows = _
              rw [onHandshake_windows, if_neg hmem]
            have hndstep : (((step env s (Event.handshake w' o')).1.clientWindows).map
                Prod.fst).Nodup := by
              rw [hw, List.map_append, List.nodup_append_comm]
              show (w' :: s.clientWindows.map Prod.fst).Nodup
              rw [List.nodup_cons]
              refine ⟨fun hcon => ?_, hnd⟩
              apply hmem
              rw [List.any_eq_true]
              rcases List.mem_map.mp hcon with ⟨x, hxmem, hxw⟩
              exact ⟨x, hxmem, by simp [hxw]⟩
            obtain ⟨hnd', hiff⟩ := ih (step env s (Event.handshake w' o')).1 hndstep
            refine ⟨hnd', fun w => (hiff w).trans ?_⟩
            rw [hw, List.map_append]
            constructor
            · rintro (hws | ⟨o, ho⟩)
              · rcases List.mem_append.mp hws with h1 | h2
                · exact Or.inl h1
                · have hww : w = w' := by simpa using h2
                  subst hww
                  exact Or.inr ⟨o', List.mem_cons_self _ _⟩
              · exact Or.inr ⟨o, List.mem_cons_of_mem _ ho⟩
            · rintro (hws | ⟨o, ho⟩)
              · exact Or.inl (List.mem_append.mpr (Or.inl hws))
              · rcases List.mem_cons.mp ho with heq | hin
                · injection heq with hww hoo
                  subst hww
                  exact Or.inl (List.mem_append.mpr (Or.inr (by simp)))
                · exact Or.inr ⟨o, hin⟩
      | measureDone v =>
          have hw := step_windows_other env (Event.measureDone v) s rfl
          obtain ⟨hnd', hiff⟩ := ih (step env s (Event.measureDone v)).1
            (by rw [hw]; exact hnd)
          refine ⟨hnd', fun w => (hiff w).trans ?_⟩
          rw [hw]
          exact or_congr_right (mem_handshake_cons_iff w (Event.measureDone v) es rfl).symm
      | viewportCallback v =>
          have hw := step_windows_other env (Event.viewportCallback v) s rfl
          obtain ⟨hnd', hiff⟩ := ih (step env s (Event.viewportCallback v)).1
            (by rw [hw]; exact hnd)
          refine ⟨hnd', fun w => (hiff w).trans ?_⟩
          rw [hw]
          exact or_congr_right (mem_handshake_cons_iff w (Event.viewportCallback v) es rfl).symm
      | scroll =>
          have hw := step_windows_other env Event.scroll s rfl
          obtain ⟨hnd', hiff⟩ := ih (step env s Event.scroll).1
            (by rw [hw]; exact hnd)
          refine ⟨hnd', fun w => (hiff w).trans ?_⟩
          rw [hw]
          exact or_congr_right (mem_handshake_cons_iff w Event.scroll es rfl).symm
      | timerFire =>
          have hw := step_windows_other env Event.timerFire s rfl
          obtain ⟨hnd', hiff⟩ := ih (step env s Event.timerFire).1
            (by rw [hw]; exact hnd)
          refine ⟨hnd', fun w => (hiff w).trans ?_⟩
          rw [hw]
          exact or_congr_right (mem_handshake_cons_iff w Event.timerFire es rfl).symm

/-- C6: the endpoint list holds exactly one entry per distinct channel
identifier (window): after any event sequence the registered window
identifiers are duplicate-free and are exactly the windows that sent a
handshake; two handshakes with the same window yield one entry (a no-op
merge), two handshakes with the same origin but different windows yield
two distinct entries. -/
theorem c6_endpoints_keyed_by_window :
    (∀ (env : Env) (evs : List Event),
      ((run env evs initState).1.clientWindows.map Prod.fst).Nodup ∧
      ∀ w : Nat, w ∈ (run env evs initState).1.clientWindows.map Prod.fst ↔
        ∃ o, Event.handshake w o ∈ evs) ∧
    (∀ (env : Env) (o : String),
      (run env [Event.handshake 1 o, Event.handshake 1 o] initState).1.clientWindows
        = [(1, o)]) ∧
    (∀ (env : Env) (o : String),
      (run env [Event.handshake 1 o, Event.handshake 2 o] initState).1.clientWindows
        = [(1, o), (2, o)]) := by
  refine ⟨?_, ?_, ?_⟩
  · intro env evs
    have h := run_windows env evs initState (by simp [initState])
    refine ⟨h.1, fun w => (h.2 w).trans ?_⟩
    simp [initState]
  · intro env o
    simp [run, step, onHandshake, startSendingIntersectionChanges_, initState]
  · intro env o
    simp [run, step, onHandshake, startSendingIntersectionChanges_, initState]

/-! ## De-duplication of identical measurement times (C4) -/

theorem sendEI_twice_same_time (env : Env) (s : ObserverState)
    (hs : s.shouldSendIntersectionChanges_ = true)
    (hp : s.pendingChanges_ = [])
    (hft : s.flushTimeout_ = true)
    (heq : (env s.measureCount).time = (env (s.measureCount + 1)).time) :
    sendElementIntersection_ env (sendElementIntersection_ env s).1
      = ({ s with measureCount := s.measureCount + 2,
                  pendingChanges_ := [env s.measureCount] }, []) := by
  have hdup1 : ¬ s.pendingChanges_.getLast?.map IntersectionChangeEntry.time
      = some (env s.measureCount).time := by
    rw [hp]; simp
  have h1 := sendEI_eq_push_timer env s hs hdup1 hft
  rw [hp] at h1
  simp only [List.nil_append] at h1
  rw [h1]
  show sendElementIntersection_ env
      { s with measureCount := s.measureCount + 1,
               pendingChanges_ := [env s.measureCount] } = _
  have hdup2 : ([env s.measureCount].getLast?.map IntersectionChangeEntry.time)
      = some (env (s.measureCount + 1)).time := by
    rw [show ([env s.measureCount].getLast?) = some (env s.measureCount) from rfl,
        Option.map_some', heq]
  rw [sendEI_eq_dup env
      { s with measureCount := s.measureCount + 1,
               pendingChanges_ := [env s.measureCount] } hs hdup2]

/-- C4: on an Active engine, if the queue is non-empty and the last queued
record's time equals the newly computed change's time, the change is
discarded silently (only the oracle counter advances, no queue growth, no
actions); consequently two consecutive `sendElementIntersection_` calls
yielding identical measurement times leave exactly one queued
ChangeRecord. -/
theorem c4_dedup_identical_times :
    (∀ (env : Env) (s : ObserverState),
      s.shouldSendIntersectionChanges_ = true →
      s.pendingChanges_.getLast?.map IntersectionChangeEntry.time
        = some (env s.measureCount).time →
      sendElementIntersection_ env s
        = ({ s with measureCount := s.measureCount + 1 }, [])) ∧
    (∀ (env : Env) (s : ObserverState),
      s.shouldSendIntersectionChanges_ = true →
      s.pendingChanges_ = [] →
      (env s.measureCount).time = (env (s.measureCount + 1)).time →
      (sendElementIntersection_ env
        (sendElementIntersection_ env s).1).1.pendingChanges_.length = 1) ∧
    (∀ (env : Env) (s : ObserverState),
      s.shouldSendIntersectionChanges_ = true →
      s.pendingChanges_ = [] →
      s.flushTimeout_ = true →
      (env s.measureCount).time = (env (s.measureCount + 1)).time →
      sendElementIntersection_ env (sendElementIntersection_ env s).1
        = ({ s with measureCount := s.measureCount + 2,
                    pendingChanges_ := [env s.measureCount] }, [])) := by
  refine ⟨fun env s hs hdup => sendEI_eq_dup env s hs hdup, ?_, ?_⟩
  · intro env s hs hp heq
    cases hft : s.flushTimeout_
    · have hdup1 : ¬ s.pendingChanges_.getLast?.map IntersectionChangeEntry.time
          = some (env s.measureCount).time := by
        rw [hp]; simp
      have h1 := sendEI_eq_push_flush env s hs hdup1 hft
      rw [h1]
      show (sendElementIntersection_ env
        { s with measureCount := s.measureCount + 1,
                 pendingChanges_ := [], flushTimeout_ := true }).1.pendingChanges_.length = 1
      have hdup2 : ¬ (([] : List IntersectionChangeEntry).getLast?.map
          IntersectionChangeEntry.time) = some (env (s.measureCount + 1)).time := by simp
      rw [sendEI_eq_push_timer env
          { s with measureCount := s.measureCount + 1,
                   pendingChanges_ := [], flushTimeout_ := true } hs hdup2 rfl]
      rfl
    · rw [sendEI_twice_same_time env s hs hp hft heq]
      rfl
  · exact fun env s hs hp hft heq => sendEI_twice_same_time env s hs hp hft heq

theorem c4_dedup_identical_times_witness :
    sendElementIntersection_ envFlat sDup
      = ({ sDup with measureCount := sDup.measureCount + 1 }, []) ∧
    (sendElementIntersection_ envFlat
      (sendElementIntersection_ envFlat sTimer).1).1.pendingChanges_.length = 1 :=
  ⟨c4_dedup_identical_times.1 envFlat sDup (by decide) (by decide),
   c4_dedup_identical_times.2.1 envFlat sTimer (by decide) (by decide) (by decide)⟩

/-! ## Rate limit: one immediate flush, then coalescing (C1) -/

theorem sendN_steady (env : Env) :
    ∀ (k : Nat) (s : ObserverState),
      s.shouldSendIntersectionChanges_ = true →
      s.flushTimeout_ = true →
      List.Chain' (fun a b => a.time ≠ b.time)
        (s.pendingChanges_ ++ windowChanges env s.measureCount k) →
      sendN env k s
        = ({ s with
              pendingChanges_ :=
                s.pendingChanges_ ++ windowChanges env s.measureCount k,
              measureCount := s.measureCount + k }, []) := by
  intro k
  induction k with
  | zero =>
      intro s hs hft hch
      show sendN env 0 s
        = ({ s with
              pendingChanges_ := s.pendingChanges_ ++ [],
              measureCount := s.measureCount + 0 }, [])
      rw [List.append_nil]
      rfl
  | succ k ih =>
      intro s hs hft hch
      have hch' : List.Chain' (fun a b => a.time ≠ b.time)
          (s.pendingChanges_
            ++ (env s.measureCount :: windowChanges env (s.measureCount + 1) k)) := hch
      have hdup : ¬ s.pendingChanges_.getLast?.map IntersectionChangeEntry.time
          = some (env s.measureCount).time := by
        intro hcon
        rcases hp : s.pendingChanges_.getLast? with _ | x
        · rw [hp] at hcon
          exact absurd hcon (by simp)
        · rw [hp, Option.map_some', Option.some_inj] at hcon
          have hne := (List.chain'_append.mp hch').2.2 x
            (by rw [Option.mem_def]; exact hp) (env s.measureCount)
            (by rw [List.head?_cons, Option.mem_def])
          exact hne hcon
      have h1 := sendEI_eq_push_timer env s hs hdup hft
      have hstep1 : sendN env (k + 1) s
          = ((sendN env k (sendElementIntersection_ env s).1).1,
             (sendElementIntersection_ env s).2
               ++ (sendN env k (sendElementIntersection_ env s).1).2) := rfl
      rw [hstep1, h1]
      have hih := ih
        { s with measureCount := s.measureCount + 1,
                 pendingChanges_ := s.pendingChanges_ ++ [env s.measureCount] }
        hs hft
        (by
          show List.Chain' (fun a b => a.time ≠ b.time)
            ((s.pendingChanges_ ++ [env s.measureCount])
              ++ windowChanges env (s.measureCount + 1) k)
          rw [List.append_assoc]
          exact hch')
      rw [hih]
      refine Prod.ext ?_ rfl
      show ObserverState.mk _ _ _ _ _ _ _ _ = ObserverState.mk _ _ _ _ _ _ _ _
      congr 1
      · show (s.pendingChanges_ ++ [env s.measureCount])
            ++ windowChanges env (s.measureCount + 1) k
          = s.pendingChanges_ ++ windowChanges env s.measureCount (k + 1)
        rw [List.append_assoc]
        rfl
      · show s.measureCount + 1 + k = s.measureCount + (k + 1)
        omega

/-- C1: with the engine Active, the queue empty and no timer outstanding,
N triggers (N at least 2) with strictly increasing measurement times
followed by the rate-limit timer firing produce exactly two broadcasts:
the first trigger immediately broadcasts the first record alone and arms
the 100 ms timer, triggers 2..N only accumulate (no send), and the timer
firing broadcasts the remaining N-1 records; together the two payloads are
all N records in time order. -/
theorem c1_rate_limit_two_broadcasts (env : Env) (s : ObserverState) (N : Nat)
    (hN : 2 ≤ N)
    (hs : s.shouldSendIntersectionChanges_ = true)
    (hp : s.pendingChanges_ = [])
    (hft : s.flushTimeout_ = false)
    (hmono : List.Chain' (fun a b => a.time < b.time)
      (windowChanges env s.measureCount N)) :
    (sendN env N s).2
      = [Action.broadcast s.clientWindows [env s.measureCount],
         Action.setTimer 100] ∧
    (step env (sendN env N s).1 Event.timerFire).2
      = [Action.broadcast s.clientWindows
          (windowChanges env (s.measureCount + 1) (N - 1))] ∧
    [env s.measureCount] ++ windowChanges env (s.measureCount + 1) (N - 1)
      = windowChanges env s.measureCount N := by
  obtain ⟨M, rfl⟩ : ∃ M, N = M + 2 := ⟨N - 2, by omega⟩
  have hdup1 : ¬ s.pendingChanges_.getLast?.map IntersectionChangeEntry.time
      = some (env s.measureCount).time := by
    rw [hp]; simp
  have h1 := sendEI_eq_push_flush env s hs hdup1 hft
  rw [hp] at h1
  simp only [List.nil_append] at h1
  have htail : List.Chain' (fun a b => a.time ≠ b.time)
      (windowChanges env (s.measureCount + 1) (M + 1)) := by
    have := (List.chain'_cons'.mp hmono).2
    exact this.imp fun a b hlt => ne_of_lt hlt
  have hsteady := sendN_steady env (M + 1)
    { s with measureCount := s.measureCount + 1,
             pendingChanges_ := [], flushTimeout_ := true }
    hs rfl
    (by
      show List.Chain' (fun a b => a.time ≠ b.time)
        (([] : List IntersectionChangeEntry)
          ++ windowChanges env (s.measureCount + 1) (M + 1))
      rw [List.nil_append]
      exact htail)
  have hstep1 : sendN env (M + 2) s
      = ((sendN env (M + 1) (sendElementIntersection_ env s).1).1,
         (sendElementIntersection_ env s).2
           ++ (sendN env (M + 1) (sendElementIntersection_ env s).1).2) := rfl
  rw [hstep1, h1, hsteady]
  refine ⟨rfl, ?_, rfl⟩
  rfl

theorem c1_rate_limit_two_broadcasts_witness :
    (sendN envW 3 sActive).2
      = [Action.broadcast sActive.clientWindows [envW sActive.measureCount],
         Action.setTimer 100] ∧
    (step envW (sendN envW 3 sActive).1 Event.timerFire).2
      = [Action.broadcast sActive.clientWindows
          (windowChanges envW (sActive.measureCount + 1) (3 - 1))] ∧
    [envW sActive.measureCount]
      ++ windowChanges envW (sActive.measureCount + 1) (3 - 1)
      = windowChanges envW sActive.measureCount 3 :=
  c1_rate_limit_two_broadcasts envW sActive 3 (by decide) (by decide) (by decide)
    (by decide)
    (by
      show List.Chain' (fun a b => a.time < b.time) [envW 0, envW 1, envW 2]
      refine List.chain'_cons.mpr ⟨by decide,
        List.chain'_cons.mpr ⟨by decide, List.chain'_singleton _⟩⟩)

/-! ## Handshake activates and yields one baseline broadcast (C2) -/

/-- C2: from the initial (inactive, endpoint-free) state, a single
handshake from window `w1 = 1` sets the activation flag, requests exactly
one asynchronous measurement, and when that measurement completes with
the target visible the whole run has produced exactly one broadcast,
addressed to the one registered window and carrying exactly one
ChangeRecord (the first sampled entry). -/
theorem c2_handshake_baseline_broadcast (env : Env) (o : String) :
    (step env initState (Event.handshake 1 o)).1.shouldSendIntersectionChanges_
      = true ∧
    (step env initState (Event.handshake 1 o)).2 = [Action.requestMeasure] ∧
    broadcastsOf
      (run env [Event.handshake 1 o, Event.measureDone true] initState).2
      = [([(1, o)], [env 0])] := by
  refine ⟨rfl, rfl, ?_⟩
  simp [run, step, onHandshake, startSendingIntersectionChanges_, measureDone,
        onViewportCallback, fire, sendElementIntersection_, flush_, initState,
        broadcastsOf]

end IntersectionObs
